import Mathlib

/-!
Verification of the Hive ↔ Reality Network bridge (the `src/network`
module of the Hive repository): node identity and address derivation
(`identity.rs`), the signing protocol, the snapshot codec (`snapshot.rs`,
`types.rs`), the HTTP client's status handling (`client.rs`) and the
submission service's chain cursor (`service.rs`).

Shallow embedding conventions:
* Machine integers are `Nat` / `Int` with explicit `% 2^w` where overflow
  or wrap-around matters; bytes are `Nat` values (< 256 where relevant).
* Rust `String`s are Lean `String`s except inside the MessagePack codec,
  where a Rust string is modelled by its UTF-8 byte list (`List Nat`).
* Fallible Rust functions (`Result`) become `Option` / `Except`.
* External crates with well-defined pure behaviour (`sha2`, `bs58`, `hex`,
  `rmp_serde`'s wire format) are given executable Lean implementations.
  The `secp256k1` signing primitive and `std`'s `DefaultHasher` are opaque
  external functions and appear as explicit function parameters.
-/

/-! ## Byte-level utilities -/

/-- Big-endian byte rendering: `beBytes k n` is the `k`-byte big-endian
representation of `n % 256^k` (most significant byte first). -/
def beBytes : Nat → Nat → List Nat
  | 0, _ => []
  | k+1, n => (n / 256 ^ k) % 256 :: beBytes k n

/-- 32-bit truncation, as in Rust `u32` wrap-around arithmetic. -/
def w32 (n : Nat) : Nat := n % 4294967296

/-- 64-bit truncation, as in Rust `u64` wrap-around arithmetic. -/
def w64 (n : Nat) : Nat := n % 18446744073709551616

/-- Rotate a 32-bit word right by `n` (for `0 < n < 32`, `x < 2^32`). -/
def rotr32 (x n : Nat) : Nat := w32 ((x >>> n) ||| (x <<< (32 - n)))

/-- Rotate a 64-bit word right by `n` (for `0 < n < 64`, `x < 2^64`). -/
def rotr64 (x n : Nat) : Nat := w64 ((x >>> n) ||| (x <<< (64 - n)))

/-- Lowercase hexadecimal digit for a value `< 16` (as in the `hex` crate). -/
def hexDigitChar (n : Nat) : Char :=
  if n < 10 then Char.ofNat (48 + n) else Char.ofNat (87 + n)

/-- The two lowercase hex characters of one byte. -/
def hexByteChars (b : Nat) : List Char :=
  [hexDigitChar ((b / 16) % 16), hexDigitChar (b % 16)]

/-- Lowercase hex encoding of a byte list, as `hex::encode`. -/
def hexEncodeChars (bs : List Nat) : List Char :=
  (bs.map hexByteChars).flatten

/-- Lowercase hex encoding of a byte list, as a `String`. -/
def hexEncode (bs : List Nat) : String := String.mk (hexEncodeChars bs)

/-- Value of one hex character, accepting both cases (as `hex::decode`). -/
def hexVal (c : Char) : Option Nat :=
  if 48 ≤ c.toNat ∧ c.toNat ≤ 57 then some (c.toNat - 48)
  else if 97 ≤ c.toNat ∧ c.toNat ≤ 102 then some (c.toNat - 87)
  else if 65 ≤ c.toNat ∧ c.toNat ≤ 70 then some (c.toNat - 55)
  else none

/-- Hex decoding of a character list: fails on an odd length or an invalid
character, exactly as `hex::decode`. -/
def hexDecodeChars : List Char → Option (List Nat)
  | [] => some []
  | [_] => none
  | c1 :: c2 :: rest => do
      let h ← hexVal c1
      let l ← hexVal c2
      let t ← hexDecodeChars rest
      pure ((16 * h + l) :: t)

/-- Hex decoding of a string, as `hex::decode`. -/
def hexDecode (s : String) : Option (List Nat) := hexDecodeChars s.data

/-- UTF-8 encoding of a single character (RFC 3629), byte values as `Nat`. -/
def utf8EncodeChar (c : Char) : List Nat :=
  let n := c.toNat
  if n < 128 then [n]
  else if n < 2048 then [192 + n / 64, 128 + n % 64]
  else if n < 65536 then [224 + n / 4096, 128 + (n / 64) % 64, 128 + n % 64]
  else [240 + n / 262144, 128 + (n / 4096) % 64, 128 + (n / 64) % 64, 128 + n % 64]

/-- UTF-8 encoding of a string (Rust `str::as_bytes`). -/
def utf8Encode (s : String) : List Nat := (s.data.map utf8EncodeChar).flatten

/-! ## SHA-256 (FIPS 180-4), modelling the `sha2` crate -/

/-- The 64 SHA-256 round constants. -/
def K256 : List Nat := [
  1116352408, 1899447441, 3049323471, 3921009573, 961987163,
  1508970993, 2453635748, 2870763221, 3624381080, 310598401,
  607225278, 1426881987, 1925078388, 2162078206, 2614888103,
  3248222580, 3835390401, 4022224774, 264347078, 604807628,
  770255983, 1249150122, 1555081692, 1996064986, 2554220882,
  2821834349, 2952996808, 3210313671, 3336571891, 3584528711,
  113926993, 338241895, 666307205, 773529912, 1294757372,
  1396182291, 1695183700, 1986661051, 2177026350, 2456956037,
  2730485921, 2820302411, 3259730800, 3345764771, 3516065817,
  3600352804, 4094571909, 275423344, 430227734, 506948616,
  659060556, 883997877, 958139571, 1322822218, 1537002063,
  1747873779, 1955562222, 2024104815, 2227730452, 2361852424,
  2428436474, 2756734187, 3204031479, 3329325298]

/-- The SHA-256 initial hash value. -/
def H256 : List Nat := [
  1779033703, 3144134277, 1013904242, 2773480762, 1359893119,
  2600822924, 528734635, 1541459225]

def sha256Ch (e f g : Nat) : Nat := (e &&& f) ^^^ ((e ^^^ 0xffffffff) &&& g)

def sha256Maj (a b c : Nat) : Nat := (a &&& b) ^^^ (a &&& c) ^^^ (b &&& c)

def sha256BigSigma0 (x : Nat) : Nat := rotr32 x 2 ^^^ rotr32 x 13 ^^^ rotr32 x 22

def sha256BigSigma1 (x : Nat) : Nat := rotr32 x 6 ^^^ rotr32 x 11 ^^^ rotr32 x 25

def sha256SmallSigma0 (x : Nat) : Nat := rotr32 x 7 ^^^ rotr32 x 18 ^^^ (x >>> 3)

def sha256SmallSigma1 (x : Nat) : Nat := rotr32 x 17 ^^^ rotr32 x 19 ^^^ (x >>> 10)

/-- Merkle–Damgård padding: append `0x80`, zeros, and the 64-bit big-endian
bit length, to a multiple of 64 bytes. -/
def sha256Pad (msg : List Nat) : List Nat :=
  msg ++ [0x80] ++ List.replicate ((64 - ((msg.length + 9) % 64)) % 64) 0
      ++ beBytes 8 (msg.length * 8)

/-- Group bytes into big-endian 32-bit words. -/
def toWords32 : List Nat → List Nat
  | b0 :: b1 :: b2 :: b3 :: rest =>
      (((b0 * 256 + b1) * 256 + b2) * 256 + b3) :: toWords32 rest
  | _ => []

/-- Split a word list into blocks of 16 words (structural recursion, so it
reduces inside the kernel). -/
def chunk16 : List Nat → List (List Nat)
  | w0 :: w1 :: w2 :: w3 :: w4 :: w5 :: w6 :: w7 ::
    w8 :: w9 :: w10 :: w11 :: w12 :: w13 :: w14 :: w15 :: rest =>
      [w0, w1, w2, w3, w4, w5, w6, w7, w8, w9, w10, w11, w12, w13, w14, w15]
        :: chunk16 rest
  | _ => []

/-- Next message-schedule word from a sliding window `W[t..t+15]`. -/
def sha256Extend (win : List Nat) : Nat :=
  w32 (win.getD 0 0 + sha256SmallSigma0 (win.getD 1 0) + win.getD 9 0
    + sha256SmallSigma1 (win.getD 14 0))

/-- The message schedule `W[0..rounds-1]` from an initial 16-word window. -/
def sha256Schedule : Nat → List Nat → List Nat
  | 0, _ => []
  | r+1, win => win.headD 0 :: sha256Schedule r (win.tail ++ [sha256Extend win])

/-- One SHA-256 compression round on the state `[a,b,c,d,e,f,g,h]`. -/
def sha256Round (st : List Nat) (kw : Nat × Nat) : List Nat :=
  match st with
  | [a, b, c, d, e, f, g, h] =>
      let t1 := w32 (h + sha256BigSigma1 e + sha256Ch e f g + kw.1 + kw.2)
      let t2 := w32 (sha256BigSigma0 a + sha256Maj a b c)
      [w32 (t1 + t2), a, b, c, w32 (d + t1), e, f, g]
  | other => other

/-- Compress one 16-word block into the running hash. -/
def sha256Compress (h : List Nat) (block : List Nat) : List Nat :=
  let w := sha256Schedule 64 block
  let final := (K256.zip w).foldl sha256Round h
  (h.zip final).map (fun p => w32 (p.1 + p.2))

/-- SHA-256 digest (32 bytes) of a byte list, as `sha2::Sha256::digest`. -/
def sha256 (msg : List Nat) : List Nat :=
  let blocks := chunk16 (toWords32 (sha256Pad msg))
  ((blocks.foldl sha256Compress H256).map (beBytes 4)).flatten

/-! ## SHA-512 (FIPS 180-4), modelling the `sha2` crate -/

/-- The 80 SHA-512 round constants. -/
def K512 : List Nat := [
  4794697086780616226, 8158064640168781261, 13096744586834688815,
  16840607885511220156, 4131703408338449720, 6480981068601479193,
  10538285296894168987, 12329834152419229976, 15566598209576043074,
  1334009975649890238, 2608012711638119052, 6128411473006802146,
  8268148722764581231, 9286055187155687089, 11230858885718282805,
  13951009754708518548, 16472876342353939154, 17275323862435702243,
  1135362057144423861, 2597628984639134821, 3308224258029322869,
  5365058923640841347, 6679025012923562964, 8573033837759648693,
  10970295158949994411, 12119686244451234320, 12683024718118986047,
  13788192230050041572, 14330467153632333762, 15395433587784984357,
  489312712824947311, 1452737877330783856, 2861767655752347644,
  3322285676063803686, 5560940570517711597, 5996557281743188959,
  7280758554555802590, 8532644243296465576, 9350256976987008742,
  10552545826968843579, 11727347734174303076, 12113106623233404929,
  14000437183269869457, 14369950271660146224, 15101387698204529176,
  15463397548674623760, 17586052441742319658, 1182934255886127544,
  1847814050463011016, 2177327727835720531, 2830643537854262169,
  3796741975233480872, 4115178125766777443, 5681478168544905931,
  6601373596472566643, 7507060721942968483, 8399075790359081724,
  8693463985226723168, 9568029438360202098, 10144078919501101548,
  10430055236837252648, 11840083180663258601, 13761210420658862357,
  14299343276471374635, 14566680578165727644, 15097957966210449927,
  16922976911328602910, 17689382322260857208, 500013540394364858,
  748580250866718886, 1242879168328830382, 1977374033974150939,
  2944078676154940804, 3659926193048069267, 4368137639120453308,
  4836135668995329356, 5532061633213252278, 6448918945643986474,
  6902733635092675308, 7801388544844847127]

/-- The SHA-512 initial hash value. -/
def H512 : List Nat := [
  7640891576956012808, 13503953896175478587, 4354685564936845355,
  11912009170470909681, 5840696475078001361, 11170449401992604703,
  2270897969802886507, 6620516959819538809]

def sha512Ch (e f g : Nat) : Nat :=
  (e &&& f) ^^^ ((e ^^^ 0xffffffffffffffff) &&& g)

def sha512Maj (a b c : Nat) : Nat := (a &&& b) ^^^ (a &&& c) ^^^ (b &&& c)

def sha512BigSigma0 (x : Nat) : Nat := rotr64 x 28 ^^^ rotr64 x 34 ^^^ rotr64 x 39

def sha512BigSigma1 (x : Nat) : Nat := rotr64 x 14 ^^^ rotr64 x 18 ^^^ rotr64 x 41

def sha512SmallSigma0 (x : Nat) : Nat := rotr64 x 1 ^^^ rotr64 x 8 ^^^ (x >>> 7)

def sha512SmallSigma1 (x : Nat) : Nat := rotr64 x 19 ^^^ rotr64 x 61 ^^^ (x >>> 6)

/-- SHA-512 padding: append `0x80`, zeros, and the 128-bit big-endian bit
length, to a multiple of 128 bytes. -/
def sha512Pad (msg : List Nat) : List Nat :=
  msg ++ [0x80] ++ List.replicate ((128 - ((msg.length + 17) % 128)) % 128) 0
      ++ beBytes 16 (msg.length * 8)

/-- Group bytes into big-endian 64-bit words. -/
def toWords64 : List Nat → List Nat
  | b0 :: b1 :: b2 :: b3 :: b4 :: b5 :: b6 :: b7 :: rest =>
      (((((((b0 * 256 + b1) * 256 + b2) * 256 + b3) * 256 + b4) * 256 + b5)
          * 256 + b6) * 256 + b7) :: toWords64 rest
  | _ => []

/-- Next SHA-512 message-schedule word from a sliding window `W[t..t+15]`. -/
def sha512Extend (win : List Nat) : Nat :=
  w64 (win.getD 0 0 + sha512SmallSigma0 (win.getD 1 0) + win.getD 9 0
    + sha512SmallSigma1 (win.getD 14 0))

/-- The SHA-512 message schedule from an initial 16-word window. -/
def sha512Schedule : Nat → List Nat → List Nat
  | 0, _ => []
  | r+1, win => win.headD 0 :: sha512Schedule r (win.tail ++ [sha512Extend win])

/-- One SHA-512 compression round on the state `[a,b,c,d,e,f,g,h]`. -/
def sha512Round (st : List Nat) (kw : Nat × Nat) : List Nat :=
  match st with
  | [a, b, c, d, e, f, g, h] =>
      let t1 := w64 (h + sha512BigSigma1 e + sha512Ch e f g + kw.1 + kw.2)
      let t2 := w64 (sha512BigSigma0 a + sha512Maj a b c)
      [w64 (t1 + t2), a, b, c, w64 (d + t1), e, f, g]
  | other => other

/-- Compress one 16-word block into the running SHA-512 hash. -/
def sha512Compress (h : List Nat) (block : List Nat) : List Nat :=
  let w := sha512Schedule 80 block
  let final := (K512.zip w).foldl sha512Round h
  (h.zip final).map (fun p => w64 (p.1 + p.2))

/-- SHA-512 digest (64 bytes) of a byte list, as `sha2::Sha512::digest`. -/
def sha512 (msg : List Nat) : List Nat :=
  let blocks := chunk16 (toWords64 (sha512Pad msg))
  ((blocks.foldl sha512Compress H512).map (beBytes 8)).flatten

/-! ## Base58 encoding, modelling the `bs58` crate -/

/-- The Bitcoin Base58 alphabet used by `bs58`. -/
def base58Alphabet : List Char :=
  "123456789ABCDEFGHJKLMNPQRSTUVWXYZabcdefghijkmnopqrstuvwxyz".data

/-- Base58 digits (most significant first) of a positive number; fuel-based
structural recursion (the embedding of `bs58`'s division loop), so it
reduces inside the kernel.  Fuel `n` is ample since the value shrinks by a
factor of 58 per step. -/
def natToB58Aux : Nat → Nat → List Char
  | 0, _ => []
  | fuel+1, n =>
      if n = 0 then []
      else natToB58Aux fuel (n / 58) ++ [base58Alphabet.getD (n % 58) ' ']

/-- Base58 digits (most significant first) of a number; empty for zero. -/
def natToB58 (n : Nat) : List Char := natToB58Aux n n

/-- Big-endian value of a byte list. -/
def bytesToNat (bs : List Nat) : Nat := bs.foldl (fun acc b => acc * 256 + b) 0

/-- Number of leading zero bytes. -/
def countLeadingZeros : List Nat → Nat
  | 0 :: rest => 1 + countLeadingZeros rest
  | _ => 0

/-- Base58 encoding of a byte list as in `bs58::encode`: one `'1'` per
leading zero byte, then the big-endian value in Base58 digits. -/
def b58Encode (bs : List Nat) : List Char :=
  List.replicate (countLeadingZeros bs) '1' ++ natToB58 (bytesToNat bs)

/-! ## Node identity and address derivation (`identity.rs`) -/

/-- The source constant `PUBLIC_KEY_DER_PREFIX` from `identity.rs`: the hex
of the DER SubjectPublicKeyInfo header for secp256k1 uncompressed public
keys (renamed here to satisfy naming restrictions of this development). -/
def publicKeyDerHeaderHex : String :=
  "3056301006072a8648ce3d020106052b8104000a03420004"

/-- The same DER header as explicit bytes, as the spec describes it ("the
fixed DER SubjectPublicKeyInfo prefix bytes"). -/
def derHeaderBytes : List Nat :=
  [0x30, 0x56, 0x30, 0x10, 0x06, 0x07, 0x2a, 0x86, 0x48, 0xce, 0x3d, 0x02,
   0x01, 0x06, 0x05, 0x2b, 0x81, 0x04, 0x00, 0x0a, 0x03, 0x42, 0x00, 0x04]

/-- `NodeIdentity::derive_address`, translated from `identity.rs` lines
90–116.  Rust slices the Base58 `String` by bytes; Base58 output is ASCII,
so character-level operations coincide.  `format!("NET{}{}", parity, end)`
is string concatenation with the decimal rendering of `parity`. -/
def derive_address (uncompressed : List Nat) : Option String :=
  match hexDecode publicKeyDerHeaderHex with
  | none => none
  | some headerBytes =>
      let der := headerBytes ++ uncompressed.drop 1
      let hash := sha256 der
      let encoded := b58Encode hash
      let e := if 36 ≤ encoded.length then encoded.drop (encoded.length - 36)
               else encoded
      let digitSum := ((e.filter (fun c => c.isDigit)).map
        (fun c => c.toNat - 48)).sum
      let parity := digitSum % 9
      some ("NET" ++ toString parity ++ String.mk e)

/-- The last `n` characters of a character list — or the whole list when it
is shorter than `n` (truncated subtraction makes the fallback automatic). -/
def lastChars (n : Nat) (l : List Char) : List Char := l.drop (l.length - n)

/-- Address derivation as claim C1 words it: `"NET" + p + s` where `s` is
the last 36 characters of the Base58 encoding of the SHA-256 digest of the
DER header bytes followed by the x‖y coordinates (leading format byte
discarded) — the whole Base58 string if shorter — and `p` is the digit
`(sum of ASCII digits of s) mod 9`. -/
def derive_address_claim (uncompressed : List Nat) : String :=
  let s := lastChars 36 (b58Encode (sha256 (derHeaderBytes ++ uncompressed.drop 1)))
  let p := ((s.filter (fun c => c.isDigit)).map (fun c => c.toNat - 48)).sum % 9
  "NET" ++ toString p ++ String.mk s

/-- A Reality Network node identity (`NodeIdentity` in `identity.rs`).  The
`Address` newtype of `types.rs` is a transparent wrapper over its string,
modelled here directly as the string. -/
structure NodeIdentity where
  secret_key : List Nat
  peer_id_hex : String
  address : String

/-- `NodeIdentity::from_secret_key` (`identity.rs` lines 59–79).  The
external `secp256k1` crate's public-key derivation
(`PublicKey::from_secret_key` followed by `serialize_uncompressed`, which
by its `[u8; 65]` type always yields a 65-byte `04 ‖ x ‖ y` array) is the
explicit parameter `pubkeyOf`. -/
def from_secret_key (pubkeyOf : List Nat → List Nat) (secret : List Nat) :
    Option NodeIdentity :=
  let uncompressed := pubkeyOf secret
  let peer := hexEncode (uncompressed.drop 1)
  (derive_address uncompressed).map
    (fun addr => { secret_key := secret, peer_id_hex := peer, address := addr })

/-- `NodeIdentity::sign_hash_hex` (`identity.rs` lines 191–205).  The
external `secp256k1` ECDSA primitive — `sign_ecdsa` under the identity's
secret key followed by `serialize_der` — is the explicit parameter
`ecdsaSignDer`, taking the 32-byte message to the DER signature bytes. -/
def sign_hash_hex (ecdsaSignDer : List Nat → List Nat) (hash_hex : String) :
    String :=
  let hash_bytes := utf8Encode hash_hex
  let dig := sha512 hash_bytes
  let msg := dig.take 32
  hexEncode (ecdsaSignDer msg)

/-- Signing as claim C2 words it: the lowercase hex encoding of the DER
ECDSA signature of the first 32 bytes of the SHA-512 digest of the UTF-8
bytes of the hash string itself (its hex characters, not the decoded
binary hash). -/
def sign_hash_hex_claim (ecdsaSignDer : List Nat → List Nat) (h : String) :
    String :=
  hexEncode (ecdsaSignDer ((sha512 (utf8Encode h)).take 32))

/-- `SignatureProof` from `types.rs`. -/
structure SignatureProof where
  id : String
  signature : String
deriving DecidableEq

/-- `Signed<T>` from `types.rs`. -/
structure Signed (T : Type) where
  value : T
  proofs : List SignatureProof

/-- `NodeIdentity::hash_value` (`identity.rs` lines 174–178): compact JSON
(the external `serde_json::to_string` for `T` is the parameter `toJson`),
UTF-8 bytes, SHA-256, lowercase hex. -/
def hash_value {T : Type} (toJson : T → String) (v : T) : String :=
  hexEncode (sha256 (utf8Encode (toJson v)))

/-- `NodeIdentity::sign_value` (`identity.rs` lines 213–227). -/
def sign_value {T : Type} (ecdsaSignDer : List Nat → List Nat)
    (toJson : T → String) (identity : NodeIdentity) (v : T) : Signed T :=
  let hash_hex := hash_value toJson v
  let signature := sign_hash_hex ecdsaSignDer hash_hex
  { value := v,
    proofs := [{ id := identity.peer_id_hex, signature := signature }] }

/-- The Base58 rendering of the address hash of a public key (the value
`encoded` in `derive_address`). -/
def b58OfPk (pk : List Nat) : List Char :=
  b58Encode (sha256 (derHeaderBytes ++ pk.drop 1))

/-- The 36-character suffix kept by `derive_address` (the value `end`). -/
def endOf (pk : List Nat) : List Char :=
  if 36 ≤ (b58OfPk pk).length then
    (b58OfPk pk).drop ((b58OfPk pk).length - 36)
  else b58OfPk pk

/-- Sum of the values of the ASCII digit characters of a string. -/
def digitSum (l : List Char) : Nat :=
  ((l.filter (fun c => c.isDigit)).map (fun c => c.toNat - 48)).sum

/-! ## MessagePack wire format, modelling the `rmp` / `rmp_serde` crates

`rmp_serde::to_vec` serializes a struct as a MessagePack array of its
fields in declaration order, integers in their most compact
representation (`write_uint` / `write_sint`), strings as UTF-8 `str`
values and vectors as arrays.  Strings are modelled by their UTF-8 byte
lists here. -/

/-- `rmp::encode::write_uint`: the most compact unsigned representation. -/
def writeUint (n : Nat) : List Nat :=
  if n < 128 then [n]
  else if n < 256 then [0xcc] ++ beBytes 1 n
  else if n < 65536 then [0xcd] ++ beBytes 2 n
  else if n < 4294967296 then [0xce] ++ beBytes 4 n
  else [0xcf] ++ beBytes 8 n

/-- `rmp::encode::write_sint`: the most compact signed representation
(non-negative values reuse the unsigned formats). -/
def writeSint (i : Int) : List Nat :=
  if -32 ≤ i ∧ i < 0 then [(i + 256).toNat]
  else if 0 ≤ i ∧ i < 128 then [i.toNat]
  else if -128 ≤ i ∧ i < -32 then [0xd0] ++ beBytes 1 (i + 256).toNat
  else if 128 ≤ i ∧ i < 256 then [0xcc] ++ beBytes 1 i.toNat
  else if -32768 ≤ i ∧ i < -128 then [0xd1] ++ beBytes 2 (i + 65536).toNat
  else if 256 ≤ i ∧ i < 65536 then [0xcd] ++ beBytes 2 i.toNat
  else if -2147483648 ≤ i ∧ i < -32768 then
    [0xd2] ++ beBytes 4 (i + 4294967296).toNat
  else if 65536 ≤ i ∧ i < 4294967296 then [0xce] ++ beBytes 4 i.toNat
  else if i < -2147483648 then
    [0xd3] ++ beBytes 8 (i + 18446744073709551616).toNat
  else [0xcf] ++ beBytes 8 i.toNat

/-- `rmp::encode::write_str`: length header then the raw UTF-8 bytes. -/
def writeStr (bs : List Nat) : List Nat :=
  (if bs.length < 32 then [0xa0 + bs.length]
   else if bs.length < 256 then [0xd9] ++ beBytes 1 bs.length
   else if bs.length < 65536 then [0xda] ++ beBytes 2 bs.length
   else [0xdb] ++ beBytes 4 bs.length) ++ bs

/-- `rmp::encode::write_array_len`. -/
def writeArrayLen (n : Nat) : List Nat :=
  if n < 16 then [0x90 + n]
  else if n < 65536 then [0xdc] ++ beBytes 2 n
  else [0xdd] ++ beBytes 4 n

/-- Read `k` big-endian bytes into an accumulator. -/
def readBEAux : Nat → Nat → List Nat → Option (Nat × List Nat)
  | 0, acc, bs => some (acc, bs)
  | _+1, _, [] => none
  | k+1, acc, b :: bs => readBEAux k (acc * 256 + b) bs

/-- Read a `k`-byte big-endian unsigned value. -/
def readBE (k : Nat) (bs : List Nat) : Option (Nat × List Nat) :=
  readBEAux k 0 bs

/-- Read `n` raw bytes. -/
def readBytes : Nat → List Nat → Option (List Nat × List Nat)
  | 0, bs => some ([], bs)
  | _+1, [] => none
  | n+1, b :: bs => (readBytes n bs).map (fun p => (b :: p.1, p.2))

/-- Two's-complement reinterpretation of a `k`-byte unsigned value, as the
decoder does for the `i8`/`i16`/`i32`/`i64` markers. -/
def signedVal (k v : Nat) : Int :=
  if v < 2 ^ (8 * k - 1) then (v : Int) else (v : Int) - 2 ^ (8 * k)

/-- Read any MessagePack integer (every marker `rmp_serde`'s number
deserialization accepts), as an `Int`. -/
def readInt (bs : List Nat) : Option (Int × List Nat) :=
  match bs with
  | [] => none
  | m :: rest =>
      if m < 128 then some ((m : Int), rest)
      else if 224 ≤ m ∧ m < 256 then some ((m : Int) - 256, rest)
      else if m = 0xcc then (readBE 1 rest).map (fun p => ((p.1 : Int), p.2))
      else if m = 0xcd then (readBE 2 rest).map (fun p => ((p.1 : Int), p.2))
      else if m = 0xce then (readBE 4 rest).map (fun p => ((p.1 : Int), p.2))
      else if m = 0xcf then (readBE 8 rest).map (fun p => ((p.1 : Int), p.2))
      else if m = 0xd0 then (readBE 1 rest).map (fun p => (signedVal 1 p.1, p.2))
      else if m = 0xd1 then (readBE 2 rest).map (fun p => (signedVal 2 p.1, p.2))
      else if m = 0xd2 then (readBE 4 rest).map (fun p => (signedVal 4 p.1, p.2))
      else if m = 0xd3 then (readBE 8 rest).map (fun p => (signedVal 8 p.1, p.2))
      else none

/-- Read an integer into a `u32` target (range-checked conversion, as
`rmp_serde` + `TryFrom` does for a `u32` struct field). -/
def readU32 (bs : List Nat) : Option (Nat × List Nat) :=
  match readInt bs with
  | none => none
  | some (v, r) => if 0 ≤ v ∧ v < 4294967296 then some (v.toNat, r) else none

/-- Read an integer into a `u64` target. -/
def readU64 (bs : List Nat) : Option (Nat × List Nat) :=
  match readInt bs with
  | none => none
  | some (v, r) =>
      if 0 ≤ v ∧ v < 18446744073709551616 then some (v.toNat, r) else none

/-- Read an integer into an `i64` target. -/
def readI64 (bs : List Nat) : Option (Int × List Nat) :=
  match readInt bs with
  | none => none
  | some (v, r) =>
      if -9223372036854775808 ≤ v ∧ v < 9223372036854775808 then some (v, r)
      else none

/-- Read a MessagePack `str` length header. -/
def readStrLen (bs : List Nat) : Option (Nat × List Nat) :=
  match bs with
  | [] => none
  | m :: rest =>
      if 0xa0 ≤ m ∧ m < 0xc0 then some (m - 0xa0, rest)
      else if m = 0xd9 then readBE 1 rest
      else if m = 0xda then readBE 2 rest
      else if m = 0xdb then readBE 4 rest
      else none

/-- Read a MessagePack `str` (its UTF-8 bytes). -/
def readStr (bs : List Nat) : Option (List Nat × List Nat) :=
  match readStrLen bs with
  | none => none
  | some (len, r) => readBytes len r

/-- Read a MessagePack array length header. -/
def readArrayLen (bs : List Nat) : Option (Nat × List Nat) :=
  match bs with
  | [] => none
  | m :: rest =>
      if 0x90 ≤ m ∧ m < 0xa0 then some (m - 0x90, rest)
      else if m = 0xdc then readBE 2 rest
      else if m = 0xdd then readBE 4 rest
      else none

/-- Read `n` consecutive `str` values. -/
def readStrList : Nat → List Nat → Option (List (List Nat) × List Nat)
  | 0, bs => some ([], bs)
  | n+1, bs =>
      match readStr bs with
      | none => none
      | some (s, r) =>
          match readStrList n r with
          | none => none
          | some (t, r2) => some (s :: t, r2)

/-! ## Snapshot codec (`snapshot.rs`) -/

/-- `VoucherStateSummary` from `snapshot.rs` (`u64`, `u64`, `i64`, `i64`). -/
structure VoucherStateSummary where
  total_created : Nat
  total_redeemed : Nat
  total_value_created_cents : Int
  total_value_redeemed_cents : Int
deriving DecidableEq

/-- `HiveStateSnapshot` from `snapshot.rs`.  Rust `String`s appear as
their UTF-8 byte lists. -/
structure HiveStateSnapshot where
  version : Nat
  business_name : List Nat
  timestamp_ms : Nat
  total_orders : Nat
  total_revenue_cents : Int
  active_orders : Nat
  delivered_orders : Nat
  vouchers : VoucherStateSummary
  order_hashes : List (List Nat)
deriving DecidableEq

/-- Field values representable in the Rust types (`u64` bounds and a
UTF-8 byte string below the `str32` limit). -/
def strValid (bs : List Nat) : Prop :=
  bs.length < 4294967296 ∧ ∀ b ∈ bs, b < 256

instance (bs : List Nat) : Decidable (strValid bs) := by
  unfold strValid
  infer_instance

/-- `i64` range. -/
def i64Range (i : Int) : Prop :=
  -9223372036854775808 ≤ i ∧ i < 9223372036854775808

instance (i : Int) : Decidable (i64Range i) := by
  unfold i64Range
  infer_instance

/-- Well-typedness of a `VoucherStateSummary` value. -/
def VoucherStateSummary.Valid (v : VoucherStateSummary) : Prop :=
  v.total_created < 18446744073709551616 ∧
  v.total_redeemed < 18446744073709551616 ∧
  i64Range v.total_value_created_cents ∧
  i64Range v.total_value_redeemed_cents

instance (v : VoucherStateSummary) : Decidable v.Valid := by
  unfold VoucherStateSummary.Valid
  infer_instance

/-- Well-typedness of a `HiveStateSnapshot` value: exactly the values
representable by the Rust struct. -/
def HiveStateSnapshot.Valid (s : HiveStateSnapshot) : Prop :=
  s.version < 4294967296 ∧
  strValid s.business_name ∧
  s.timestamp_ms < 18446744073709551616 ∧
  s.total_orders < 18446744073709551616 ∧
  i64Range s.total_revenue_cents ∧
  s.active_orders < 4294967296 ∧
  s.delivered_orders < 18446744073709551616 ∧
  s.vouchers.Valid ∧
  s.order_hashes.length < 4294967296 ∧
  ∀ h ∈ s.order_hashes, strValid h

instance (s : HiveStateSnapshot) : Decidable s.Valid := by
  unfold HiveStateSnapshot.Valid
  infer_instance

/-- MessagePack encoding of the voucher summary (a 4-element array). -/
def VoucherStateSummary.encode (v : VoucherStateSummary) : List Nat :=
  writeArrayLen 4 ++ writeUint v.total_created ++ writeUint v.total_redeemed
    ++ writeSint v.total_value_created_cents
    ++ writeSint v.total_value_redeemed_cents

/-- `HiveStateSnapshot::to_bytes` (`snapshot.rs` lines 49–54):
`rmp_serde::to_vec`, i.e. a 9-element array of the fields in declaration
order.  The Rust `Result` never fails on this struct, so the encoder is
total here. -/
def HiveStateSnapshot.to_bytes (s : HiveStateSnapshot) : List Nat :=
  writeArrayLen 9 ++ writeUint s.version ++ writeStr s.business_name
    ++ writeUint s.timestamp_ms ++ writeUint s.total_orders
    ++ writeSint s.total_revenue_cents ++ writeUint s.active_orders
    ++ writeUint s.delivered_orders ++ s.vouchers.encode
    ++ writeArrayLen s.order_hashes.length
    ++ (s.order_hashes.map writeStr).flatten

/-- Decode a voucher summary. -/
def readVoucherSummary (bs : List Nat) :
    Option (VoucherStateSummary × List Nat) :=
  match readArrayLen bs with
  | none => none
  | some (n, r0) =>
      if n = 4 then
        match readU64 r0 with
        | none => none
        | some (tc, r1) =>
            match readU64 r1 with
            | none => none
            | some (tr, r2) =>
                match readI64 r2 with
                | none => none
                | some (vc, r3) =>
                    match readI64 r3 with
                    | none => none
                    | some (vr, r4) => some (⟨tc, tr, vc, vr⟩, r4)
      else none

/-- `HiveStateSnapshot::from_bytes` (`snapshot.rs` lines 57–60):
`rmp_serde::from_slice`.  UTF-8 validation of decoded strings is omitted
(strings are modelled as byte lists); trailing bytes are ignored as
`from_slice` does. -/
def HiveStateSnapshot.from_bytes (bs : List Nat) : Option HiveStateSnapshot :=
  match readArrayLen bs with
  | none => none
  | some (n, r0) =>
      if n = 9 then
        match readU32 r0 with
        | none => none
        | some (ver, r1) =>
            match readStr r1 with
            | none => none
            | some (name, r2) =>
                match readU64 r2 with
                | none => none
                | some (ts, r3) =>
                    match readU64 r3 with
                    | none => none
                    | some (tor, r4) =>
                        match readI64 r4 with
                        | none => none
                        | some (rev, r5) =>
                            match readU32 r5 with
                            | none => none
                            | some (ao, r6) =>
                                match readU64 r6 with
                                | none => none
                                | some (del, r7) =>
                                    match readVoucherSummary r7 with
                                    | none => none
                                    | some (vch, r8) =>
                                        match readArrayLen r8 with
                                        | none => none
                                        | some (m, r9) =>
                                            match readStrList m r9 with
                                            | none => none
                                            | some (hashes, _) =>
                                                some ⟨ver, name, ts, tor, rev,
                                                  ao, del, vch, hashes⟩
      else none

/-! ## State channel binary (`types.rs`) and signed-byte reinterpretation -/

/-- Rust `b as i8` for a byte `b < 256`: the signed 8-bit value congruent
to `b` modulo 256. -/
def byteToSigned (b : Nat) : Int :=
  if b < 128 then (b : Int) else (b : Int) - 256

/-- Rust `b as u8` for an `i8` value: two's-complement reinterpretation. -/
def signedToByte (i : Int) : Nat := (i % 256).toNat

/-- `StateChannelSnapshotBinary` from `types.rs`: chain pointer plus
signed content bytes (`Vec<i8>`). -/
structure StateChannelSnapshotBinary where
  last_snapshot_hash : String
  content : List Int
deriving DecidableEq

/-- `StateChannelSnapshotBinary::from_unsigned` (`types.rs` lines 89–95). -/
def StateChannelSnapshotBinary.from_unsigned (last_snapshot_hash : String)
    (content : List Nat) : StateChannelSnapshotBinary :=
  { last_snapshot_hash := last_snapshot_hash,
    content := content.map byteToSigned }

/-- `StateChannelSnapshotBinary::content_unsigned` (`types.rs` 98–100). -/
def StateChannelSnapshotBinary.content_unsigned
    (b : StateChannelSnapshotBinary) : List Nat :=
  b.content.map signedToByte

/-- `HiveStateSnapshot::to_state_channel_binary` (`snapshot.rs` 63–72). -/
def HiveStateSnapshot.to_state_channel_binary (s : HiveStateSnapshot)
    (last_snapshot_hash : String) : StateChannelSnapshotBinary :=
  StateChannelSnapshotBinary.from_unsigned last_snapshot_hash s.to_bytes

/-- The snapshot of the repository's `test_snapshot_roundtrip` test
(non-empty order hashes). -/
def sampleSnapshot : HiveStateSnapshot :=
  { version := 1
    business_name := utf8Encode "Test Business"
    timestamp_ms := 1700000000000
    total_orders := 42
    total_revenue_cents := 123456
    active_orders := 3
    delivered_orders := 39
    vouchers := { total_created := 10, total_redeemed := 5,
                  total_value_created_cents := 50000,
                  total_value_redeemed_cents := 25000 }
    order_hashes := [utf8Encode "abc123", utf8Encode "def456"] }

/-- The snapshot of the repository's `test_state_channel_binary` test
(empty order hashes). -/
def sampleSnapshotEmpty : HiveStateSnapshot :=
  { version := 1
    business_name := utf8Encode "Cloudy"
    timestamp_ms := 1700000000000
    total_orders := 1
    total_revenue_cents := 3500
    active_orders := 0
    delivered_orders := 1
    vouchers := { total_created := 0, total_redeemed := 0,
                  total_value_created_cents := 0,
                  total_value_redeemed_cents := 0 }
    order_hashes := [] }

/-! ## Network client (`client.rs`) -/

/-- `DeployAppInfo` from `types.rs`. -/
structure DeployAppInfo where
  source : String
  app_name : String
  app_version : String
  app_description : String
  app_download_url : String
  binary_hash : String
  token_ticker : String
  total_supply : Nat
deriving DecidableEq

/-- A trivial app descriptor used as a concrete test value. -/
def sampleAppInfo : DeployAppInfo :=
  { source := "s", app_name := "a", app_version := "1",
    app_description := "d", app_download_url := "u",
    binary_hash := "b", token_ticker := "t", total_supply := 0 }

/-- `reqwest::StatusCode::is_success`: the 2xx range. -/
def statusIsSuccess (status : Nat) : Prop := 200 ≤ status ∧ status < 300

instance (status : Nat) : Decidable (statusIsSuccess status) := by
  unfold statusIsSuccess
  infer_instance

/-- `RealityClient::get_app_data` (`client.rs` lines 79–98), as a function
of the response: its HTTP status and the result of parsing its body as a
`DeployAppInfo` (the external `reqwest` body-JSON step).  The code checks
only for 404; any other status goes straight to the body parse. -/
def get_app_data (status : Nat) (parseBody : Except String DeployAppInfo) :
    Except String (Option DeployAppInfo) :=
  if status = 404 then Except.ok none
  else
    match parseBody with
    | Except.ok info => Except.ok (some info)
    | Except.error e => Except.error ("Failed to parse app data: " ++ e)

/-! ## State capture (`snapshot.rs`, `capture_state`) -/

/-- Rust `i as u64` for an `i64` value (two's-complement wrap). -/
def i64AsU64 (i : Int) : Nat := (i % 18446744073709551616).toNat

/-- Rust `i as u32` for an `i64` value (two's-complement wrap). -/
def i64AsU32 (i : Int) : Nat := (i % 4294967296).toNat

/-- The fields of `store::Stats` consumed by `capture_state` (all `i64`
SQL counters; the `f64` revenue sum is handled separately below). -/
structure StoreStats where
  total_orders : Int
  pending_orders : Int
  delivered_orders : Int
  total_vouchers : Int
  redeemed_vouchers : Int

/-- Digits of a number in lowercase hex, fuel-based (empty for zero). -/
def natToHexAux : Nat → Nat → List Char
  | 0, _ => []
  | fuel+1, n =>
      if n = 0 then []
      else natToHexAux fuel (n / 16) ++ [hexDigitChar (n % 16)]

/-- Rust `format!("{:016x}", n)`: lowercase hex, zero-padded on the left
to at least 16 characters. -/
def hex16 (n : Nat) : List Char :=
  let ds := natToHexAux n n
  List.replicate (16 - ds.length) '0' ++ ds

/-- `capture_state` (`snapshot.rs` lines 76–115) as a function of the
store reads.  External pieces appear as parameters: `orderKey` models
`format!("{}:{}:{}", o.id, o.total, o.customer_phone)` (its `f64`
`Display` of `o.total` is floating point, outside this embedding);
`defaultHash` models `std::collections::hash_map::DefaultHasher` (an
unspecified 64-bit hash, wrapped by `w64` to reflect `finish()`'s `u64`
type); `revenue_cents` is the result of the floating-point expression
`(stats.total_revenue * 100.0) as i64`; `now_ms` is
`SystemTime::now()` in Unix milliseconds (cast `as u64` via `w64`). -/
def capture_state {Order : Type} (orderKey : Order → String)
    (defaultHash : String → Nat) (now_ms : Nat) (revenue_cents : Int)
    (stats : StoreStats) (orders : List Order) (business_name : String) :
    HiveStateSnapshot :=
  { version := 1
    business_name := utf8Encode business_name
    timestamp_ms := w64 now_ms
    total_orders := i64AsU64 stats.total_orders
    total_revenue_cents := revenue_cents
    active_orders := i64AsU32 stats.pending_orders
    delivered_orders := i64AsU64 stats.delivered_orders
    vouchers := { total_created := i64AsU64 stats.total_vouchers
                  total_redeemed := i64AsU64 stats.redeemed_vouchers
                  total_value_created_cents := 0
                  total_value_redeemed_cents := 0 }
    order_hashes := orders.map
      (fun o => utf8Encode (String.mk (hex16 (w64 (defaultHash (orderKey o)))))) }

/-! ## Submission service (`service.rs`) -/

/-- The genesis chain-cursor literal from `NetworkService::new`
(`service.rs` line 105), copied verbatim from the source. -/
def genesis_last_snapshot_hash : String :=
  "0000000000000000000000000000000000000000000000000000000000000000"

/-- The mutable state of `NetworkService` relevant to the chain cursor. -/
structure ServiceState where
  last_snapshot_hash : String
deriving DecidableEq

/-- The cursor state installed by `NetworkService::new`. -/
def initial_service_state : ServiceState :=
  { last_snapshot_hash := genesis_last_snapshot_hash }

/-- JSON escape of one character, as `serde_json` renders string
characters (lowercase `\u00XX` for unnamed control characters). -/
def jsonEscapeChar (c : Char) : List Char :=
  if c = '"' then ['\\', '"']
  else if c = '\\' then ['\\', '\\']
  else if c.toNat = 8 then ['\\', 'b']
  else if c.toNat = 9 then ['\\', 't']
  else if c.toNat = 10 then ['\\', 'n']
  else if c.toNat = 12 then ['\\', 'f']
  else if c.toNat = 13 then ['\\', 'r']
  else if c.toNat < 32 then
    ['\\', 'u', '0', '0', hexDigitChar ((c.toNat / 16) % 16),
     hexDigitChar (c.toNat % 16)]
  else [c]

/-- A JSON string literal as `serde_json` writes it. -/
def jsonString (s : String) : String :=
  "\"" ++ String.mk ((s.data.map jsonEscapeChar).flatten) ++ "\""

/-- Comma-separated concatenation. -/
def commaSep : List String → String
  | [] => ""
  | [x] => x
  | x :: y :: t => x ++ "," ++ commaSep (y :: t)

/-- `serde_json::to_string` of a `StateChannelSnapshotBinary`: camelCase
field names in declaration order (per its `serde` attributes), the signed
content bytes as a JSON number array. -/
def jsonOfBinary (b : StateChannelSnapshotBinary) : String :=
  "\x7b\"lastSnapshotHash\":" ++ jsonString b.last_snapshot_hash
    ++ ",\"content\":[" ++ commaSep (b.content.map (fun i => toString i))
    ++ "]\x7d"

/-- `NetworkService::submit_snapshot` (`service.rs` lines 140–167) as one
transition on the cursor state.  Inputs from the environment are explicit:
`captureRes` is the store capture result, `submitF` the gateway's response
to the submitted envelope (the external HTTP POST).  On any error the
function returns it and leaves the state untouched, mirroring the early
`?` returns; on success it stores `hash_value` of the submitted envelope
value as the new cursor. -/
def submit_snapshot (ecdsaSignDer : List Nat → List Nat)
    (identity : NodeIdentity) (captureRes : Except String HiveStateSnapshot)
    (submitF : Signed StateChannelSnapshotBinary → Except String Unit)
    (st : ServiceState) : Except String Unit × ServiceState :=
  match captureRes with
  | Except.error e => (Except.error e, st)
  | Except.ok hive_state =>
      let sc_binary := hive_state.to_state_channel_binary st.last_snapshot_hash
      let signed := sign_value ecdsaSignDer jsonOfBinary identity sc_binary
      match submitF signed with
      | Except.error e => (Except.error e, st)
      | Except.ok _ =>
          (Except.ok (),
           { last_snapshot_hash := hash_value jsonOfBinary sc_binary })

/-- A placeholder identity for concrete service runs. -/
def trivialIdentity : NodeIdentity :=
  { secret_key := [], peer_id_hex := "", address := "" }

/-- A concrete pre-submission cursor state. -/
def testServiceState : ServiceState := { last_snapshot_hash := "h0" }

/-- A concrete stats record for the C10 witness. -/
def testStats : StoreStats :=
  { total_orders := 7, pending_orders := 2, delivered_orders := 5,
    total_vouchers := 4, redeemed_vouchers := 3 }

/-! ## Theorems -/

/-- FIPS 180-4 test vector: SHA-256 of "abc". -/
theorem sha256_vector_abc :
    hexEncode (sha256 [97, 98, 99]) =
      "ba7816bf8f01cfea414140de5dae2223b00361a396177a9cb410ff61f20015ad" := by
  decide

/-- Test vector: SHA-256 of the empty message. -/
theorem sha256_vector_empty :
    hexEncode (sha256 []) =
      "e3b0c44298fc1c149afbf4c8996fb92427ae41e4649b934ca495991b7852b855" := by
  decide

set_option maxRecDepth 8000 in
/-- FIPS 180-4 test vector: SHA-512 of "abc". -/
theorem sha512_vector_abc :
    hexEncode (sha512 [97, 98, 99]) =
      "ddaf35a193617abacc417349ae20413112e6fa4e89a97ea20a9eeee64b55d39a2192992a274fc1a836ba3c23a3feebbd454d4423643ce80e2a9ac94fa54ca49f" := by
  decide

/-- `bs58` sanity vector: two leading zero bytes become two `'1'`s and the
value 256 becomes the digits `5R`. -/
theorem b58_vector_simple : b58Encode [0, 0, 1, 0] = ['1', '1', '5', 'R'] := by
  decide

/-! ## Length lemmas for the hash primitives -/

theorem beBytes_length (k n : Nat) : (beBytes k n).length = k := by
  induction k generalizing n with
  | zero => rfl
  | succ k ih => simp [beBytes, ih]

theorem sha256Round_length (st : List Nat) (kw : Nat × Nat) :
    (sha256Round st kw).length = st.length := by
  unfold sha256Round; split <;> rfl

theorem sha512Round_length (st : List Nat) (kw : Nat × Nat) :
    (sha512Round st kw).length = st.length := by
  unfold sha512Round; split <;> rfl

theorem foldl_sha256Round_length (l : List (Nat × Nat)) (st : List Nat) :
    (l.foldl sha256Round st).length = st.length := by
  induction l generalizing st with
  | nil => rfl
  | cons x t ih => rw [List.foldl_cons, ih, sha256Round_length]

theorem foldl_sha512Round_length (l : List (Nat × Nat)) (st : List Nat) :
    (l.foldl sha512Round st).length = st.length := by
  induction l generalizing st with
  | nil => rfl
  | cons x t ih => rw [List.foldl_cons, ih, sha512Round_length]

theorem sha256Compress_length (h block : List Nat) :
    (sha256Compress h block).length = h.length := by
  simp [sha256Compress, foldl_sha256Round_length]

theorem sha512Compress_length (h block : List Nat) :
    (sha512Compress h block).length = h.length := by
  simp [sha512Compress, foldl_sha512Round_length]

theorem foldl_sha256Compress_length (bs : List (List Nat)) (h : List Nat) :
    (bs.foldl sha256Compress h).length = h.length := by
  induction bs generalizing h with
  | nil => rfl
  | cons x t ih => rw [List.foldl_cons, ih, sha256Compress_length]

theorem foldl_sha512Compress_length (bs : List (List Nat)) (h : List Nat) :
    (bs.foldl sha512Compress h).length = h.length := by
  induction bs generalizing h with
  | nil => rfl
  | cons x t ih => rw [List.foldl_cons, ih, sha512Compress_length]

theorem flatten_map_beBytes_length (k : Nat) (l : List Nat) :
    ((l.map (beBytes k)).flatten).length = k * l.length := by
  induction l with
  | nil => simp
  | cons x t ih => simp [beBytes_length, ih]; ring

/-- A SHA-256 digest is always 32 bytes. -/
theorem sha256_length (msg : List Nat) : (sha256 msg).length = 32 := by
  unfold sha256
  rw [flatten_map_beBytes_length, foldl_sha256Compress_length]
  rfl

/-- A SHA-512 digest is always 64 bytes. -/
theorem sha512_length (msg : List Nat) : (sha512 msg).length = 64 := by
  unfold sha512
  rw [flatten_map_beBytes_length, foldl_sha512Compress_length]
  rfl

theorem hexEncodeChars_length (bs : List Nat) :
    (hexEncodeChars bs).length = 2 * bs.length := by
  induction bs with
  | nil => rfl
  | cons b t ih =>
      simp [hexEncodeChars, hexByteChars] at *
      omega

/-! ## Theorems about identity and signing -/

/-- Cross-checked vector: the address of the public key `04 ‖ 01 02 … 40`
(hex), computed independently outside this development. -/
theorem derive_address_vector :
    derive_address (4 :: (List.range 64).map (fun i => i + 1)) =
      some "NET8ejDEGk145MMy9zeUdi6fUDDA1jgxwNLdPMyR" := by
  decide

/-- C1: for every 65-byte uncompressed secp256k1 public key,
`derive_address` returns exactly the string described by the claim:
`"NET" + p + s` with `s` the last 36 characters of the Base58 encoding of
the SHA-256 digest of the DER header followed by the x‖y bytes (whole
string if shorter), and `p = (sum of ASCII digits of s) mod 9`. -/
theorem derive_address_matches_claim (pk : List Nat) (_h65 : pk.length = 65) :
    derive_address pk = some (derive_address_claim pk) := by
  have hdr : hexDecode publicKeyDerHeaderHex = some derHeaderBytes := by decide
  unfold derive_address derive_address_claim lastChars
  rw [hdr]
  by_cases hc : 36 ≤ (b58Encode (sha256 (derHeaderBytes ++ pk.drop 1))).length
  · simp only [if_pos hc]
  · have h0 : (b58Encode (sha256 (derHeaderBytes ++ pk.drop 1))).length - 36 = 0 := by
      omega
    simp only [if_neg hc, h0, List.drop_zero]

/-- Witness for C1 at the concrete public key `04 ‖ 01 02 … 40`. -/
theorem derive_address_matches_claim_witness :
    (4 :: (List.range 64).map (fun i => i + 1)).length = 65 ∧
    derive_address (4 :: (List.range 64).map (fun i => i + 1)) =
      some (derive_address_claim (4 :: (List.range 64).map (fun i => i + 1))) :=
  ⟨by decide, derive_address_matches_claim _ (by decide)⟩

/-- C2: `sign_hash_hex` agrees with the claim's description, and the
elliptic-curve message really is a 32-byte value (the first 32 bytes of the
64-byte SHA-512 digest of the hex characters themselves). -/
theorem sign_hash_hex_matches_claim (ecdsaSignDer : List Nat → List Nat)
    (h : String) :
    sign_hash_hex ecdsaSignDer h = sign_hash_hex_claim ecdsaSignDer h ∧
    ((sha512 (utf8Encode h)).take 32).length = 32 := by
  refine ⟨rfl, ?_⟩
  rw [List.length_take, sha512_length]
  decide

/-- Decimal rendering of a digit below 9 is that single digit character. -/
theorem natRepr_lt9 (p : Nat) (hp : p < 9) :
    (toString p).data = [Char.ofNat (48 + p)] := by
  interval_cases p <;> decide

/-- Character code of a rendered digit below 9. -/
theorem charOfNat_digit_toNat (p : Nat) (hp : p < 9) :
    (Char.ofNat (48 + p)).toNat = 48 + p := by
  interval_cases p <;> decide

/-- The fourth element of a list with at least four explicit heads. -/
theorem getD3_cons (a b c d x : Char) (l : List Char) :
    (a :: b :: c :: d :: l).getD 3 x = d := rfl

/-- The characters of the address literal `"NET"`. -/
theorem netData : ("NET" : String).data = ['N', 'E', 'T'] := rfl

/-- Unfolding equation for `derive_address`. -/
theorem derive_address_eq (pk : List Nat) :
    derive_address pk =
      some ("NET" ++ toString (digitSum (endOf pk) % 9)
        ++ String.mk (endOf pk)) := by
  have hdr : hexDecode publicKeyDerHeaderHex = some derHeaderBytes := by decide
  unfold derive_address endOf digitSum b58OfPk
  rw [hdr]

/-- Shape of a derived address whenever the Base58 rendering of the hash
has at least 36 characters: 40 characters total, `"NET"` first, then one
digit character in `'0'..'8'`. -/
theorem derive_address_shape (pk : List Nat)
    (h36 : 36 ≤ (b58OfPk pk).length) :
    ∃ a : String, derive_address pk = some a ∧ a.length = 40 ∧
      a.data.take 3 = ['N', 'E', 'T'] ∧
      48 ≤ (a.data.getD 3 ' ').toNat ∧ (a.data.getD 3 ' ').toNat ≤ 56 := by
  have hel : (endOf pk).length = 36 := by
    unfold endOf
    rw [if_pos h36, List.length_drop]
    omega
  have hp : digitSum (endOf pk) % 9 < 9 := Nat.mod_lt _ (by norm_num)
  refine ⟨_, derive_address_eq pk, ?_, ?_, ?_, ?_⟩
  · rw [String.length_append, String.length_append]
    have h1 : (toString (digitSum (endOf pk) % 9)).length = 1 := by
      show (toString (digitSum (endOf pk) % 9)).data.length = 1
      rw [natRepr_lt9 _ hp]
      rfl
    have h2 : (String.mk (endOf pk)).length = 36 := hel
    have h3 : ("NET" : String).length = 3 := rfl
    omega
  · rw [String.data_append, String.data_append, natRepr_lt9 _ hp]
    rfl
  · rw [String.data_append, String.data_append, natRepr_lt9 _ hp, netData]
    simp only [List.cons_append, List.nil_append, List.singleton_append]
    rw [getD3_cons, charOfNat_digit_toNat _ hp]
    omega
  · rw [String.data_append, String.data_append, natRepr_lt9 _ hp, netData]
    simp only [List.cons_append, List.nil_append, List.singleton_append]
    rw [getD3_cons, charOfNat_digit_toNat _ hp]
    omega

/-- C8: for every secret key, the identity built by `from_secret_key` has a
128-hex-character peer id and a 40-character address of the form
`"NET"` + digit `0`–`8` + 36-character suffix.  The hypothesis `h65` is the
`[u8; 65]` guarantee of `secp256k1::PublicKey::serialize_uncompressed`;
`h36` is the (always observed, code-defended) fact that the Base58
rendering of the SHA-256 digest has at least 36 characters. -/
theorem from_secret_key_shape (pubkeyOf : List Nat → List Nat)
    (secret : List Nat) (h65 : (pubkeyOf secret).length = 65)
    (h36 : 36 ≤ (b58OfPk (pubkeyOf secret)).length) :
    ∃ I : NodeIdentity, from_secret_key pubkeyOf secret = some I ∧
      I.peer_id_hex.length = 128 ∧ I.address.length = 40 ∧
      I.address.data.take 3 = ['N', 'E', 'T'] ∧
      48 ≤ (I.address.data.getD 3 ' ').toNat ∧
      (I.address.data.getD 3 ' ').toNat ≤ 56 := by
  obtain ⟨a, ha, hlen, hnet, hd1, hd2⟩ := derive_address_shape (pubkeyOf secret) h36
  refine ⟨{ secret_key := secret,
            peer_id_hex := hexEncode ((pubkeyOf secret).drop 1),
            address := a }, ?_, ?_, hlen, hnet, hd1, hd2⟩
  · simp only [from_secret_key, ha, Option.map_some']
  · show (hexEncodeChars ((pubkeyOf secret).drop 1)).length = 128
    rw [hexEncodeChars_length, List.length_drop, h65]

/-- Witness for C8 at the concrete "public key" `04 ‖ 01 02 … 40`. -/
theorem from_secret_key_shape_witness :
    ((fun _ : List Nat => 4 :: (List.range 64).map (fun i => i + 1)) []).length
        = 65 ∧
    ∃ I : NodeIdentity,
      from_secret_key
        (fun _ : List Nat => 4 :: (List.range 64).map (fun i => i + 1)) []
          = some I ∧
      I.peer_id_hex.length = 128 ∧ I.address.length = 40 ∧
      I.address.data.take 3 = ['N', 'E', 'T'] ∧
      48 ≤ (I.address.data.getD 3 ' ').toNat ∧
      (I.address.data.getD 3 ' ').toNat ≤ 56 :=
  ⟨by decide, from_secret_key_shape _ _ (by decide) (by decide)⟩

/-- C9: `sign_value` wraps the value unchanged with exactly one proof whose
id is the signer's peer id and whose signature is `sign_hash_hex` of
`hash_value` of the value. -/
theorem sign_value_envelope {T : Type} (ecdsaSignDer : List Nat → List Nat)
    (toJson : T → String) (identity : NodeIdentity) (v : T) :
    (sign_value ecdsaSignDer toJson identity v).value = v ∧
    (sign_value ecdsaSignDer toJson identity v).proofs.length = 1 ∧
    ((sign_value ecdsaSignDer toJson identity v).proofs.headD
        { id := "", signature := "" }).id = identity.peer_id_hex ∧
    ((sign_value ecdsaSignDer toJson identity v).proofs.headD
        { id := "", signature := "" }).signature
      = sign_hash_hex ecdsaSignDer (hash_value toJson v) :=
  ⟨rfl, rfl, rfl, rfl⟩

/-! ## MessagePack roundtrip lemmas -/

theorem readBEAux_append (k acc n : Nat) (rest : List Nat) :
    readBEAux k acc (beBytes k n ++ rest) =
      some (acc * 256 ^ k + n % 256 ^ k, rest) := by
  induction k generalizing acc with
  | zero => simp [readBEAux, beBytes, Nat.mod_one]
  | succ k ih =>
      show readBEAux (k+1) acc (((n / 256 ^ k) % 256) :: (beBytes k n ++ rest)) = _
      rw [readBEAux, ih]
      have hm : n % 256 ^ (k+1) = n % 256 ^ k + 256 ^ k * (n / 256 ^ k % 256) := by
        rw [pow_succ]
        exact Nat.mod_mul
      rw [hm]
      congr 1
      congr 1
      ring

theorem readBE_append (k n : Nat) (rest : List Nat) (h : n < 256 ^ k) :
    readBE k (beBytes k n ++ rest) = some (n, rest) := by
  unfold readBE
  rw [readBEAux_append, Nat.zero_mul, Nat.zero_add, Nat.mod_eq_of_lt h]

theorem readBytes_append (bs rest : List Nat) :
    readBytes bs.length (bs ++ rest) = some (bs, rest) := by
  induction bs with
  | nil => rfl
  | cons b t ih => simp [readBytes, ih]

theorem readInt_cc (rest : List Nat) :
    readInt (0xcc :: rest) = (readBE 1 rest).map (fun p => ((p.1 : Int), p.2)) := rfl

theorem readInt_cd (rest : List Nat) :
    readInt (0xcd :: rest) = (readBE 2 rest).map (fun p => ((p.1 : Int), p.2)) := rfl

theorem readInt_ce (rest : List Nat) :
    readInt (0xce :: rest) = (readBE 4 rest).map (fun p => ((p.1 : Int), p.2)) := rfl

theorem readInt_cf (rest : List Nat) :
    readInt (0xcf :: rest) = (readBE 8 rest).map (fun p => ((p.1 : Int), p.2)) := rfl

theorem readInt_d0 (rest : List Nat) :
    readInt (0xd0 :: rest) = (readBE 1 rest).map (fun p => (signedVal 1 p.1, p.2)) := rfl

theorem readInt_d1 (rest : List Nat) :
    readInt (0xd1 :: rest) = (readBE 2 rest).map (fun p => (signedVal 2 p.1, p.2)) := rfl

theorem readInt_d2 (rest : List Nat) :
    readInt (0xd2 :: rest) = (readBE 4 rest).map (fun p => (signedVal 4 p.1, p.2)) := rfl

theorem readInt_d3 (rest : List Nat) :
    readInt (0xd3 :: rest) = (readBE 8 rest).map (fun p => (signedVal 8 p.1, p.2)) := rfl

theorem readInt_writeUint (n : Nat) (rest : List Nat)
    (h : n < 18446744073709551616) :
    readInt (writeUint n ++ rest) = some ((n : Int), rest) := by
  unfold writeUint
  split_ifs with h1 h2 h3 h4
  · show readInt (n :: rest) = _
    simp only [readInt]
    rw [if_pos h1]
  · simp only [List.cons_append, List.nil_append, List.append_assoc]
    rw [readInt_cc, readBE_append 1 n rest (by norm_num; omega)]
    rfl
  · simp only [List.cons_append, List.nil_append, List.append_assoc]
    rw [readInt_cd, readBE_append 2 n rest (by norm_num; omega)]
    rfl
  · simp only [List.cons_append, List.nil_append, List.append_assoc]
    rw [readInt_ce, readBE_append 4 n rest (by norm_num; omega)]
    rfl
  · simp only [List.cons_append, List.nil_append, List.append_assoc]
    rw [readInt_cf, readBE_append 8 n rest (by norm_num; omega)]
    rfl

theorem readInt_writeSint (i : Int) (rest : List Nat) (h : i64Range i) :
    readInt (writeSint i ++ rest) = some (i, rest) := by
  obtain ⟨hlo, hhi⟩ := h
  unfold writeSint
  split_ifs with h1 h2 h3 h4 h5 h6 h7 h8 h9
  · show readInt ((i + 256).toNat :: rest) = _
    simp only [readInt]
    rw [if_neg (by omega), if_pos (by constructor <;> omega)]
    congr 1
    congr 1
    omega
  · show readInt (i.toNat :: rest) = _
    simp only [readInt]
    rw [if_pos (by omega)]
    congr 1
    congr 1
    omega
  · simp only [List.cons_append, List.nil_append, List.append_assoc]
    rw [readInt_d0, readBE_append 1 _ rest (by norm_num; omega)]
    show some (signedVal 1 (i + 256).toNat, rest) = _
    unfold signedVal
    norm_num
    rw [if_neg (by omega)]
    congr 1
    congr 1
    omega
  · simp only [List.cons_append, List.nil_append, List.append_assoc]
    rw [readInt_cc, readBE_append 1 _ rest (by norm_num; omega)]
    show some ((i.toNat : Int), rest) = _
    congr 1
    congr 1
    omega
  · simp only [List.cons_append, List.nil_append, List.append_assoc]
    rw [readInt_d1, readBE_append 2 _ rest (by norm_num; omega)]
    show some (signedVal 2 (i + 65536).toNat, rest) = _
    unfold signedVal
    norm_num
    rw [if_neg (by omega)]
    congr 1
    congr 1
    omega
  · simp only [List.cons_append, List.nil_append, List.append_assoc]
    rw [readInt_cd, readBE_append 2 _ rest (by norm_num; omega)]
    show some ((i.toNat : Int), rest) = _
    congr 1
    congr 1
    omega
  · simp only [List.cons_append, List.nil_append, List.append_assoc]
    rw [readInt_d2, readBE_append 4 _ rest (by norm_num; omega)]
    show some (signedVal 4 (i + 4294967296).toNat, rest) = _
    unfold signedVal
    norm_num
    rw [if_neg (by omega)]
    congr 1
    congr 1
    omega
  · simp only [List.cons_append, List.nil_append, List.append_assoc]
    rw [readInt_ce, readBE_append 4 _ rest (by norm_num; omega)]
    show some ((i.toNat : Int), rest) = _
    congr 1
    congr 1
    omega
  · simp only [List.cons_append, List.nil_append, List.append_assoc]
    rw [readInt_d3, readBE_append 8 _ rest (by norm_num; omega)]
    show some (signedVal 8 (i + 18446744073709551616).toNat, rest) = _
    unfold signedVal
    norm_num
    rw [if_neg (by omega)]
    congr 1
    congr 1
    omega
  · simp only [List.cons_append, List.nil_append, List.append_assoc]
    rw [readInt_cf, readBE_append 8 _ rest (by norm_num; omega)]
    show some ((i.toNat : Int), rest) = _
    congr 1
    congr 1
    omega

theorem readU32_writeUint (n : Nat) (rest : List Nat) (h : n < 4294967296) :
    readU32 (writeUint n ++ rest) = some (n, rest) := by
  unfold readU32
  rw [readInt_writeUint n rest (by omega)]
  simp only []
  split_ifs with hc
  · simp only [Option.some.injEq, Prod.mk.injEq]
    exact ⟨by omega, trivial⟩
  · exact absurd ⟨by omega, by omega⟩ hc

theorem readU64_writeUint (n : Nat) (rest : List Nat)
    (h : n < 18446744073709551616) :
    readU64 (writeUint n ++ rest) = some (n, rest) := by
  unfold readU64
  rw [readInt_writeUint n rest h]
  simp only []
  split_ifs with hc
  · simp only [Option.some.injEq, Prod.mk.injEq]
    exact ⟨by omega, trivial⟩
  · exact absurd ⟨by omega, by omega⟩ hc

theorem readI64_writeSint (i : Int) (rest : List Nat) (h : i64Range i) :
    readI64 (writeSint i ++ rest) = some (i, rest) := by
  unfold readI64
  rw [readInt_writeSint i rest h]
  obtain ⟨hlo, hhi⟩ := h
  simp only []
  split_ifs with hc
  · rfl
  · exact absurd ⟨by omega, by omega⟩ hc

theorem readStrLen_fix (l : Nat) (rest : List Nat) (h : l < 32) :
    readStrLen ((0xa0 + l) :: rest) = some (l, rest) := by
  simp only [readStrLen]
  rw [if_pos (show 0xa0 ≤ 0xa0 + l ∧ 0xa0 + l < 0xc0 by constructor <;> omega)]
  simp only [Option.some.injEq, Prod.mk.injEq]
  exact ⟨by omega, trivial⟩

theorem readStrLen_d9 (rest : List Nat) :
    readStrLen (0xd9 :: rest) = readBE 1 rest := rfl

theorem readStrLen_da (rest : List Nat) :
    readStrLen (0xda :: rest) = readBE 2 rest := rfl

theorem readStrLen_db (rest : List Nat) :
    readStrLen (0xdb :: rest) = readBE 4 rest := rfl

theorem readStrLen_writeStr (bs rest : List Nat) (h : bs.length < 4294967296) :
    readStrLen (writeStr bs ++ rest) = some (bs.length, bs ++ rest) := by
  unfold writeStr
  split_ifs with h1 h2 h3
  · simp only [List.cons_append, List.nil_append, List.append_assoc]
    rw [readStrLen_fix _ _ h1]
  · simp only [List.cons_append, List.nil_append, List.append_assoc]
    rw [readStrLen_d9, readBE_append 1 _ _ (by norm_num; omega)]
  · simp only [List.cons_append, List.nil_append, List.append_assoc]
    rw [readStrLen_da, readBE_append 2 _ _ (by norm_num; omega)]
  · simp only [List.cons_append, List.nil_append, List.append_assoc]
    rw [readStrLen_db, readBE_append 4 _ _ (by norm_num; omega)]

theorem readStr_writeStr (bs rest : List Nat) (h : bs.length < 4294967296) :
    readStr (writeStr bs ++ rest) = some (bs, rest) := by
  unfold readStr
  rw [readStrLen_writeStr bs rest h]
  exact readBytes_append bs rest

theorem readArrayLen_fix (l : Nat) (rest : List Nat) (h : l < 16) :
    readArrayLen ((0x90 + l) :: rest) = some (l, rest) := by
  simp only [readArrayLen]
  rw [if_pos (show 0x90 ≤ 0x90 + l ∧ 0x90 + l < 0xa0 by constructor <;> omega)]
  simp only [Option.some.injEq, Prod.mk.injEq]
  exact ⟨by omega, trivial⟩

theorem readArrayLen_dc (rest : List Nat) :
    readArrayLen (0xdc :: rest) = readBE 2 rest := rfl

theorem readArrayLen_dd (rest : List Nat) :
    readArrayLen (0xdd :: rest) = readBE 4 rest := rfl

theorem readArrayLen_writeArrayLen (n : Nat) (rest : List Nat)
    (h : n < 4294967296) :
    readArrayLen (writeArrayLen n ++ rest) = some (n, rest) := by
  unfold writeArrayLen
  split_ifs with h1 h2
  · simp only [List.cons_append, List.nil_append, List.append_assoc]
    rw [readArrayLen_fix _ _ h1]
  · simp only [List.cons_append, List.nil_append, List.append_assoc]
    rw [readArrayLen_dc, readBE_append 2 _ _ (by norm_num; omega)]
  · simp only [List.cons_append, List.nil_append, List.append_assoc]
    rw [readArrayLen_dd, readBE_append 4 _ _ (by norm_num; omega)]

theorem readStrList_append (l : List (List Nat)) (rest : List Nat)
    (h : ∀ s ∈ l, strValid s) :
    readStrList l.length ((l.map writeStr).flatten ++ rest) = some (l, rest) := by
  induction l with
  | nil => rfl
  | cons s t ih =>
      show readStrList (t.length + 1)
        ((writeStr s ++ (t.map writeStr).flatten) ++ rest) = _
      unfold readStrList
      rw [List.append_assoc, readStr_writeStr s _ (h s (by simp)).1]
      simp only []
      rw [ih (fun x hx => h x (by simp [hx]))]

theorem readVoucherSummary_encode (v : VoucherStateSummary) (rest : List Nat)
    (hv : v.Valid) :
    readVoucherSummary (v.encode ++ rest) = some (v, rest) := by
  obtain ⟨h1, h2, h3, h4⟩ := hv
  unfold VoucherStateSummary.encode readVoucherSummary
  simp only [List.append_assoc]
  rw [readArrayLen_writeArrayLen 4 _ (by norm_num)]
  simp only []
  rw [if_pos trivial, readU64_writeUint _ _ h1]
  simp only []
  rw [readU64_writeUint _ _ h2]
  simp only []
  rw [readI64_writeSint _ _ h3]
  simp only []
  rw [readI64_writeSint _ _ h4]

/-- C5: for every well-typed `HiveStateSnapshot` — empty or non-empty
`order_hashes` alike — decoding the encoding succeeds and reproduces
every field exactly. -/
theorem hive_snapshot_roundtrip (S : HiveStateSnapshot) (h : S.Valid) :
    HiveStateSnapshot.from_bytes S.to_bytes = some S := by
  obtain ⟨h1, ⟨hn1, _hn2⟩, h3, h4, h5, h6, h7, hv, h9, h10⟩ := h
  unfold HiveStateSnapshot.to_bytes HiveStateSnapshot.from_bytes
  simp only [List.append_assoc]
  rw [readArrayLen_writeArrayLen 9 _ (by norm_num)]
  simp only []
  rw [if_pos trivial, readU32_writeUint _ _ h1]
  simp only []
  rw [readStr_writeStr _ _ hn1]
  simp only []
  rw [readU64_writeUint _ _ h3]
  simp only []
  rw [readU64_writeUint _ _ h4]
  simp only []
  rw [readI64_writeSint _ _ h5]
  simp only []
  rw [readU32_writeUint _ _ h6]
  simp only []
  rw [readU64_writeUint _ _ h7]
  simp only []
  rw [readVoucherSummary_encode _ _ hv]
  simp only []
  rw [readArrayLen_writeArrayLen _ _ h9]
  simp only []
  rw [← List.append_nil ((S.order_hashes.map writeStr).flatten),
    readStrList_append _ _ h10]

/-! ## Bytes emitted by the encoder are bytes -/

theorem beBytes_mem_lt (k n : Nat) : ∀ b ∈ beBytes k n, b < 256 := by
  induction k generalizing n with
  | zero => intro b hb; simp [beBytes] at hb
  | succ k ih =>
      intro b hb
      simp only [beBytes, List.mem_cons] at hb
      rcases hb with h | h
      · omega
      · exact ih n b h

theorem writeUint_mem_lt (n : Nat) : ∀ b ∈ writeUint n, b < 256 := by
  unfold writeUint
  split_ifs with h1 h2 h3 h4 <;> intro b hb <;> simp at hb
  · omega
  · rcases hb with h | h
    · omega
    · exact beBytes_mem_lt _ _ b h
  · rcases hb with h | h
    · omega
    · exact beBytes_mem_lt _ _ b h
  · rcases hb with h | h
    · omega
    · exact beBytes_mem_lt _ _ b h
  · rcases hb with h | h
    · omega
    · exact beBytes_mem_lt _ _ b h

theorem writeSint_mem_lt (i : Int) : ∀ b ∈ writeSint i, b < 256 := by
  unfold writeSint
  split_ifs with h1 h2 h3 h4 h5 h6 h7 h8 h9 <;> intro b hb <;> simp at hb
  · omega
  · omega
  all_goals rcases hb with h | h
  all_goals first
    | omega
    | exact beBytes_mem_lt _ _ b h

theorem writeStr_mem_lt (bs : List Nat) (hbs : ∀ b ∈ bs, b < 256) :
    ∀ b ∈ writeStr bs, b < 256 := by
  unfold writeStr
  split_ifs with h1 h2 h3 <;> intro b hb <;> simp at hb
  · rcases hb with h | h
    · omega
    · exact hbs b h
  all_goals rcases hb with h | h | h
  all_goals first
    | omega
    | exact beBytes_mem_lt _ _ b h
    | exact hbs b h

theorem writeArrayLen_mem_lt (n : Nat) : ∀ b ∈ writeArrayLen n, b < 256 := by
  unfold writeArrayLen
  split_ifs with h1 h2 <;> intro b hb <;> simp at hb
  · omega
  all_goals rcases hb with h | h
  all_goals first
    | omega
    | exact beBytes_mem_lt _ _ b h

theorem encode_mem_lt (v : VoucherStateSummary) :
    ∀ b ∈ v.encode, b < 256 := by
  unfold VoucherStateSummary.encode
  intro b hb
  simp only [List.mem_append] at hb
  rcases hb with (((h | h) | h) | h) | h
  · exact writeArrayLen_mem_lt 4 b h
  · exact writeUint_mem_lt _ b h
  · exact writeUint_mem_lt _ b h
  · exact writeSint_mem_lt _ b h
  · exact writeSint_mem_lt _ b h

theorem flatten_writeStr_mem_lt (l : List (List Nat))
    (h : ∀ s ∈ l, ∀ b ∈ s, b < 256) :
    ∀ b ∈ (l.map writeStr).flatten, b < 256 := by
  intro b hb
  simp only [List.mem_flatten, List.mem_map] at hb
  obtain ⟨bs, ⟨s, hs, rfl⟩, hmem⟩ := hb
  exact writeStr_mem_lt s (h s hs) b hmem

/-- Every byte of an encoded snapshot is an actual byte value. -/
theorem to_bytes_mem_lt (S : HiveStateSnapshot) (hS : S.Valid) :
    ∀ b ∈ S.to_bytes, b < 256 := by
  obtain ⟨_, ⟨_, hn2⟩, _, _, _, _, _, _, _, h10⟩ := hS
  intro b hb
  unfold HiveStateSnapshot.to_bytes at hb
  simp only [List.mem_append] at hb
  rcases hb with (((((((((h | h) | h) | h) | h) | h) | h) | h) | h) | h) | h
  · exact writeArrayLen_mem_lt 9 b h
  · exact writeUint_mem_lt _ b h
  · exact writeStr_mem_lt _ hn2 b h
  · exact writeUint_mem_lt _ b h
  · exact writeUint_mem_lt _ b h
  · exact writeSint_mem_lt _ b h
  · exact writeUint_mem_lt _ b h
  · exact writeUint_mem_lt _ b h
  · exact encode_mem_lt _ b h
  · exact writeArrayLen_mem_lt _ b h
  · exact flatten_writeStr_mem_lt _ (fun s hs => (h10 s hs).2) b h

theorem signedToByte_byteToSigned (b : Nat) (h : b < 256) :
    signedToByte (byteToSigned b) = b := by
  unfold byteToSigned signedToByte
  split_ifs with h1 <;> omega

theorem byteToSigned_range (b : Nat) (h : b < 256) :
    byteToSigned b % 256 = (b : Int) % 256 ∧
    -128 ≤ byteToSigned b ∧ byteToSigned b < 128 := by
  unfold byteToSigned
  split_ifs with h1
  · exact ⟨rfl, by omega, by omega⟩
  · exact ⟨by omega, by omega, by omega⟩

theorem map_signed_roundtrip (l : List Nat) (h : ∀ b ∈ l, b < 256) :
    (l.map byteToSigned).map signedToByte = l := by
  induction l with
  | nil => rfl
  | cons b t ih =>
      simp only [List.map_cons]
      rw [signedToByte_byteToSigned b (h b (by simp)),
        ih (fun x hx => h x (by simp [hx]))]

/-- Witness for C5 at the two test snapshots (non-empty and empty
order-hash sequences). -/
theorem hive_snapshot_roundtrip_witness :
    sampleSnapshot.Valid ∧
    HiveStateSnapshot.from_bytes sampleSnapshot.to_bytes = some sampleSnapshot ∧
    sampleSnapshotEmpty.Valid ∧
    HiveStateSnapshot.from_bytes sampleSnapshotEmpty.to_bytes
      = some sampleSnapshotEmpty :=
  ⟨by decide, hive_snapshot_roundtrip sampleSnapshot (by decide),
   by decide, hive_snapshot_roundtrip sampleSnapshotEmpty (by decide)⟩

/-- C6: `to_state_channel_binary` keeps the chain pointer exactly as
supplied; its content is `to_bytes` with every byte reinterpreted as the
signed 8-bit integer congruent to it modulo 256 in `-128..127`; and
mapping the content back to unsigned bytes recovers `to_bytes` exactly. -/
theorem to_state_channel_binary_spec (S : HiveStateSnapshot) (h : String)
    (hS : S.Valid) :
    (S.to_state_channel_binary h).last_snapshot_hash = h ∧
    (S.to_state_channel_binary h).content = S.to_bytes.map byteToSigned ∧
    (∀ b ∈ S.to_bytes, byteToSigned b % 256 = (b : Int) % 256 ∧
      -128 ≤ byteToSigned b ∧ byteToSigned b < 128) ∧
    (S.to_state_channel_binary h).content_unsigned = S.to_bytes := by
  refine ⟨rfl, rfl, ?_, ?_⟩
  · intro b hb
    exact byteToSigned_range b (to_bytes_mem_lt S hS b hb)
  · show (S.to_bytes.map byteToSigned).map signedToByte = S.to_bytes
    exact map_signed_roundtrip _ (to_bytes_mem_lt S hS)

/-- Witness for C6 at the `test_state_channel_binary` inputs. -/
theorem to_state_channel_binary_spec_witness :
    sampleSnapshotEmpty.Valid ∧
    ((sampleSnapshotEmpty.to_state_channel_binary
        "previous_hash_here").last_snapshot_hash = "previous_hash_here" ∧
     (sampleSnapshotEmpty.to_state_channel_binary "previous_hash_here").content
        = sampleSnapshotEmpty.to_bytes.map byteToSigned ∧
     (∀ b ∈ sampleSnapshotEmpty.to_bytes,
        byteToSigned b % 256 = (b : Int) % 256 ∧
        -128 ≤ byteToSigned b ∧ byteToSigned b < 128) ∧
     (sampleSnapshotEmpty.to_state_channel_binary
        "previous_hash_here").content_unsigned = sampleSnapshotEmpty.to_bytes) :=
  ⟨by decide,
   to_state_channel_binary_spec sampleSnapshotEmpty "previous_hash_here"
     (by decide)⟩

/-- Counterexample to C7: status 500 is non-2xx and not 404, yet when the
body parses as a descriptor, `get_app_data` returns it as success rather
than failing. -/
theorem get_app_data_counterexample :
    ¬ statusIsSuccess 500 ∧ 500 ≠ 404 ∧
    get_app_data 500 (Except.ok sampleAppInfo)
      = Except.ok (some sampleAppInfo) :=
  ⟨by decide, by decide, rfl⟩

/-- C7 (amended): `get_app_data` returns "not found" exactly on status
404; for every other status — successful or not — it simply parses the
body, returning the descriptor on success and failing only when the body
does not parse. -/
theorem get_app_data_amended (status : Nat)
    (parseBody : Except String DeployAppInfo) :
    ((get_app_data status parseBody = Except.ok none) ↔ status = 404) ∧
    (status ≠ 404 → ∀ info, parseBody = Except.ok info →
      get_app_data status parseBody = Except.ok (some info)) ∧
    (status ≠ 404 → ∀ e, parseBody = Except.error e →
      get_app_data status parseBody
        = Except.error ("Failed to parse app data: " ++ e)) := by
  unfold get_app_data
  by_cases h4 : status = 404
  · rw [if_pos h4]
    refine ⟨⟨fun _ => h4, fun _ => rfl⟩, ?_, ?_⟩
    · intro hne
      exact absurd h4 hne
    · intro hne
      exact absurd h4 hne
  · rw [if_neg h4]
    refine ⟨⟨?_, fun h => absurd h h4⟩, ?_, ?_⟩
    · intro hok
      rcases parseBody with e | info <;> simp at hok
    · intro _ info hinfo
      rw [hinfo]
    · intro _ e he
      rw [he]

/-- Witness for C7's amended statement at statuses 404, 500-with-parseable
body and 500-with-unparseable body. -/
theorem get_app_data_amended_witness :
    get_app_data 404 (Except.ok sampleAppInfo) = Except.ok none ∧
    get_app_data 500 (Except.ok sampleAppInfo)
      = Except.ok (some sampleAppInfo) ∧
    get_app_data 500 (Except.error "bad body")
      = Except.error ("Failed to parse app data: " ++ "bad body") :=
  ⟨(get_app_data_amended 404 (Except.ok sampleAppInfo)).1.mpr rfl,
   (get_app_data_amended 500 (Except.ok sampleAppInfo)).2.1 (by decide)
     sampleAppInfo rfl,
   (get_app_data_amended 500 (Except.error "bad body")).2.2 (by decide)
     "bad body" rfl⟩

/-- C10: whatever the store contains, the captured voucher summary always
reports zero created and redeemed value, while the created/redeemed counts
are the store's counters (cast `i64 → u64`). -/
theorem capture_state_voucher_values_zero {Order : Type}
    (orderKey : Order → String) (defaultHash : String → Nat)
    (now_ms : Nat) (revenue_cents : Int) (stats : StoreStats)
    (orders : List Order) (business_name : String) :
    (capture_state orderKey defaultHash now_ms revenue_cents stats orders
        business_name).vouchers.total_value_created_cents = 0 ∧
    (capture_state orderKey defaultHash now_ms revenue_cents stats orders
        business_name).vouchers.total_value_redeemed_cents = 0 ∧
    (capture_state orderKey defaultHash now_ms revenue_cents stats orders
        business_name).vouchers.total_created
      = i64AsU64 stats.total_vouchers ∧
    (capture_state orderKey defaultHash now_ms revenue_cents stats orders
        business_name).vouchers.total_redeemed
      = i64AsU64 stats.redeemed_vouchers :=
  ⟨rfl, rfl, rfl, rfl⟩

/-- Counterexample to C3: the genesis sentinel has 64 characters, not 68. -/
theorem genesis_cursor_not_68_chars :
    genesis_last_snapshot_hash.length = 64 ∧
    genesis_last_snapshot_hash.length ≠ 68 := by
  decide

/-- C3 (amended): the Submission Service's initial chain cursor is a
64-character all-zero hex string (consistent with a 32-byte SHA-256
digest). -/
theorem genesis_cursor_64_zero_hex :
    genesis_last_snapshot_hash.length = 64 ∧
    ∀ c ∈ genesis_last_snapshot_hash.data, c = '0' := by
  decide

/-- C4: in a submission cycle, success stores `hash_value` of the
submitted `StateChannelSnapshotBinary` envelope (built from the current
cursor) as the new cursor, so the next envelope points at this one; any
failure returns the error with the cursor unchanged. -/
theorem submit_snapshot_cursor (ecdsaSignDer : List Nat → List Nat)
    (identity : NodeIdentity) (st : ServiceState)
    (captureRes : Except String HiveStateSnapshot)
    (submitF : Signed StateChannelSnapshotBinary → Except String Unit) :
    (∀ hive, captureRes = Except.ok hive →
      submitF (sign_value ecdsaSignDer jsonOfBinary identity
          (hive.to_state_channel_binary st.last_snapshot_hash))
        = Except.ok () →
      submit_snapshot ecdsaSignDer identity captureRes submitF st =
        (Except.ok (),
         { last_snapshot_hash := hash_value jsonOfBinary
             (hive.to_state_channel_binary st.last_snapshot_hash) })) ∧
    (∀ e,
      (submit_snapshot ecdsaSignDer identity captureRes submitF st).1
        = Except.error e →
      (submit_snapshot ecdsaSignDer identity captureRes submitF st).2 = st) := by
  constructor
  · intro hive hc hs
    subst hc
    simp only [submit_snapshot]
    rw [hs]
  · intro e he
    rcases captureRes with e2 | hive
    · rfl
    · simp only [submit_snapshot] at he ⊢
      rcases hsub : submitF (sign_value ecdsaSignDer jsonOfBinary identity
          (hive.to_state_channel_binary st.last_snapshot_hash)) with e3 | u
      · rfl
      · rw [hsub] at he
        simp at he

/-- Witness for C4: a successful cycle advances the cursor to the
envelope hash, and a failing cycle leaves the state unchanged. -/
theorem submit_snapshot_cursor_witness :
    (submit_snapshot (fun _ => []) trivialIdentity
        (Except.ok sampleSnapshotEmpty) (fun _ => Except.ok ())
        testServiceState =
      (Except.ok (),
       { last_snapshot_hash := hash_value jsonOfBinary
           (sampleSnapshotEmpty.to_state_channel_binary
             testServiceState.last_snapshot_hash) })) ∧
    (submit_snapshot (fun _ => []) trivialIdentity
        (Except.ok sampleSnapshotEmpty) (fun _ => Except.error "boom")
        testServiceState).2 = testServiceState :=
  ⟨(submit_snapshot_cursor (fun _ => []) trivialIdentity testServiceState
      (Except.ok sampleSnapshotEmpty) (fun _ => Except.ok ())).1
      sampleSnapshotEmpty rfl rfl,
   (submit_snapshot_cursor (fun _ => []) trivialIdentity testServiceState
      (Except.ok sampleSnapshotEmpty) (fun _ => Except.error "boom")).2
      "boom" rfl⟩

/-- Witness for C2 at the repository's `test_sign_and_verify` hash string
and a trivial signing backend. -/
theorem sign_hash_hex_matches_claim_witness :
    sign_hash_hex (fun _ => []) "abc123def456"
      = sign_hash_hex_claim (fun _ => []) "abc123def456" ∧
    ((sha512 (utf8Encode "abc123def456")).take 32).length = 32 :=
  sign_hash_hex_matches_claim (fun _ => []) "abc123def456"

/-- Witness for C9 at a concrete value and identity. -/
theorem sign_value_envelope_witness :
    (sign_value (fun _ => []) (fun _ : Nat => "1") trivialIdentity 1).value
        = 1 ∧
    (sign_value (fun _ => []) (fun _ : Nat => "1") trivialIdentity
        1).proofs.length = 1 ∧
    ((sign_value (fun _ => []) (fun _ : Nat => "1") trivialIdentity
        1).proofs.headD { id := "", signature := "" }).id
      = trivialIdentity.peer_id_hex ∧
    ((sign_value (fun _ => []) (fun _ : Nat => "1") trivialIdentity
        1).proofs.headD { id := "", signature := "" }).signature
      = sign_hash_hex (fun _ => []) (hash_value (fun _ : Nat => "1") 1) :=
  sign_value_envelope (fun _ => []) (fun _ : Nat => "1") trivialIdentity 1

/-- Witness for C10 at concrete store contents. -/
theorem capture_state_voucher_values_zero_witness :
    (capture_state (fun _ : Unit => "") (fun _ => 0) 0 900 testStats [()]
        "b").vouchers.total_value_created_cents = 0 ∧
    (capture_state (fun _ : Unit => "") (fun _ => 0) 0 900 testStats [()]
        "b").vouchers.total_value_redeemed_cents = 0 ∧
    (capture_state (fun _ : Unit => "") (fun _ => 0) 0 900 testStats [()]
        "b").vouchers.total_created = i64AsU64 testStats.total_vouchers ∧
    (capture_state (fun _ : Unit => "") (fun _ => 0) 0 900 testStats [()]
        "b").vouchers.total_redeemed = i64AsU64 testStats.redeemed_vouchers :=
  capture_state_voucher_values_zero (fun _ : Unit => "") (fun _ => 0) 0 900
    testStats [()] "b"

/-- Witness for C3's amended statement: the genesis cursor length. -/
theorem genesis_cursor_64_zero_hex_witness :
    genesis_last_snapshot_hash.length = 64 ∧
    initial_service_state.last_snapshot_hash.length = 64 :=
  ⟨genesis_cursor_64_zero_hex.1, genesis_cursor_64_zero_hex.1⟩
